import Mathlib

/-!
Shallow embedding of the shop-analytics core (src/core and
src/Analytics_Service) and verification of its specification claims.

Conventions of the embedding:
* Python tuples/sequences become Lean `List`s, Python `int` becomes `Int`,
  Python `str` becomes `String`.
* Python `dict`s (which preserve insertion order and have unique keys)
  become association lists with an update-or-append `alSet` operation and
  first-match lookup `alGet`; this reproduces both the key order and the
  lookup semantics of CPython dicts.
* `Either[dict, T]` from core/ftypes.py becomes `Except ErrDict T`: the
  Left channel is the error dictionary, the Right channel the success value.
* Functions of the source that generate a uuid take the generated id as an
  explicit parameter (`oid`), since id generation is external nondeterminism.
* Python floats produced by true division are modelled as exact rationals
  (`ℚ`); the arithmetic content of the claims is about the quotient.
-/

/-- Mirrors `core.domain.Category` (frozen dataclass). -/
structure Category where
  id : String
  name : String
  parent_id : Option String
deriving DecidableEq

/-- Mirrors `core.domain.Product` (frozen dataclass); `price` is an integer
number of minor currency units. -/
structure Product where
  id : String
  title : String
  price : Int
  category_id : String
  tags : List String
deriving DecidableEq

/-- Mirrors `core.domain.Cart` (frozen dataclass). -/
structure Cart where
  id : String
  user_id : String
  items : List (String × Int)
deriving DecidableEq

/-- Mirrors `core.domain.Order` (frozen dataclass). -/
structure Order where
  id : String
  user_id : String
  items : List (String × Int)
  total : Int
  ts : String
  status : String
deriving DecidableEq

/-- The error payload `{"error": msg}` used by checkout / validate_order. -/
structure ErrDict where
  error : String
deriving DecidableEq

-- ============ Cart operations (core/transforms.py) ============

/-- Embeds `transforms.add_to_cart`: qty ≤ 0 is a no-op; an existing
(product_id) pair has its quantity incremented in place; otherwise the new
pair is appended at the end. -/
def add_to_cart (cart : Cart) (product_id : String) (qty : Int) : Cart :=
  if qty ≤ 0 then cart
  else
    match cart.items.find? (fun item => item.1 == product_id) with
    | some _ =>
        { cart with
          items := cart.items.map
            (fun item => if item.1 == product_id then (item.1, item.2 + qty) else item) }
    | none => { cart with items := cart.items ++ [(product_id, qty)] }

/-- Embeds `transforms.remove_from_cart`: filters out every pair whose
product id equals `product_id`. -/
def remove_from_cart (cart : Cart) (product_id : String) : Cart :=
  { cart with items := cart.items.filter (fun item => item.1 != product_id) }

-- ============ Checkout (core/transforms.py) ============

/-- A single-quote character, used to reproduce the literal error text of
`checkout`. -/
def squo : String := String.singleton (Char.ofNat 39)

/-- The error description produced by `checkout` for a missing product. -/
def notFoundMsg (pid : String) : String :=
  "Product " ++ squo ++ pid ++ squo ++ " not found"

/-- Embeds the inner `get_price` of `transforms.checkout`: price of the
first product whose id matches, `none` when absent (the `Maybe` returned by
the source is `nothing` exactly when the lookup misses, since prices are
integers and never `None`). -/
def get_price (products : List Product) (pid : String) : Option Int :=
  (products.find? (fun p => p.id == pid)).map Product.price

/-- Embeds the inner `accumulate_total` of `transforms.checkout`: an
`Either`-carrying left fold that short-circuits on the first missing
product id. -/
def accumulate_total (products : List Product) (acc : Except ErrDict Int)
    (item : String × Int) : Except ErrDict Int :=
  match acc with
  | .error e => .error e
  | .ok current_total =>
      match get_price products item.1 with
      | none => .error ⟨notFoundMsg item.1⟩
      | some price => .ok (current_total + price * item.2)

/-- Embeds `transforms.checkout`. The generated uuid is passed in as `oid`. -/
def checkout (cart : Cart) (ts : String) (oid : String)
    (products : List Product) : Except ErrDict Order :=
  match cart.items.foldl (accumulate_total products) (Except.ok 0) with
  | .error e => .error e
  | .ok total =>
      .ok { id := oid, user_id := cart.user_id, items := cart.items,
            total := total, ts := ts, status := "paid" }

/-- Specification-side total of a cart: the sum, in cart order, of
price(pid) × qty over the items (missing prices counted as 0; under the
all-present hypothesis of the success case every price resolves). -/
def itemsTotal (products : List Product) (items : List (String × Int)) : Int :=
  (items.map (fun item => ((get_price products item.1).getD 0) * item.2)).sum

-- ============ Category recursion (core/recursion.py) ============

/-- Fuel-indexed embedding of `recursion.flatten_categories`. The Python
function recurses on child ids with no structural decrease (and diverges on
cyclic parent graphs); the fuel makes the recursion well-founded. For an
acyclic input the recursion depth is bounded by the number of categories,
so `cats.length + 1` fuel reproduces the Python result exactly. -/
def flattenFuel : Nat → List Category → String → List Category
  | 0, _, _ => []
  | fuel + 1, cats, root =>
      match cats.find? (fun c => c.id == root) with
      | none => []
      | some root_cat =>
          let direct_children := cats.filter (fun c => c.parent_id == some root)
          let nested := direct_children.flatMap (fun child => flattenFuel fuel cats child.id)
          root_cat :: (direct_children ++ nested)

/-- Embeds `recursion.flatten_categories`: returns `()` when `root` matches
no category, else root, then the direct children, then the recursively
flattened subtree of each direct child (note: the source appends
`direct_children` AND each child's full flatten, so each direct child
appears twice whenever it exists). -/
def flatten_categories (cats : List Category) (root : String) : List Category :=
  flattenFuel (cats.length + 1) cats root

/-- Embeds `recursion.collect_products_recursive`: filters products whose
`category_id` is among the ids of `flatten_categories cats root_id`.
The source builds the id set from the flattened subcategories only; it does
not add `root_id` itself. -/
def collect_products_recursive (cats : List Category) (prods : List Product)
    (root_id : String) : List Product :=
  let subcats := flatten_categories cats root_id
  let cat_ids := subcats.map Category.id
  prods.filter (fun p => cat_ids.contains p.category_id)

-- ============ Association lists for Python dicts ============

/-- Lookup in an insertion-ordered association list (first match), the
embedding of `d.get(k)` / `d[k]` on a Python dict with unique keys. -/
def alGet [BEq κ] (d : List (κ × β)) (k : κ) : Option β :=
  (d.find? (fun kv => kv.1 == k)).map Prod.snd

/-- Update-or-append on an insertion-ordered association list: the embedding
of `{**d, k: v}` on a Python dict — an existing key keeps its position and
gets the new value, a new key is appended at the end. -/
def alSet [BEq κ] (k : κ) (v : β) : List (κ × β) → List (κ × β)
  | [] => [(k, v)]
  | kv :: rest => if kv.1 == k then (k, v) :: rest else kv :: alSet k v rest

-- ============ Report engine (Analytics_Service/report.py) ============

/-- Embeds `report.average_order_value`: mean of `total` over paid orders as
an exact rational (the source divides two ints with `/`), `0` when there is
no paid order. -/
def average_order_value (orders : List Order) : ℚ :=
  let paid_orders := orders.filter (fun o => o.status == "paid")
  if paid_orders.isEmpty then 0
  else
    let total := paid_orders.foldl (fun acc o => acc + o.total) (0 : Int)
    (total : ℚ) / (paid_orders.length : ℚ)

/-- The result record of `report.sales_summary` (the returned dict). -/
structure SalesSummary where
  total_orders : Nat
  paid_orders : Nat
  refunded_orders : Nat
  cancelled_orders : Nat
  total_revenue : Int
  total_refunded : Int
  net_revenue : Int
  avg_order_value : ℚ
deriving DecidableEq

/-- Embeds `report.sales_summary`. -/
def sales_summary (orders : List Order) : SalesSummary :=
  let paid := orders.filter (fun o => o.status == "paid")
  let refunded := orders.filter (fun o => o.status == "refunded")
  let cancelled := orders.filter (fun o => o.status == "cancelled")
  let total_paid := paid.foldl (fun acc o => acc + o.total) (0 : Int)
  let total_refunded := refunded.foldl (fun acc o => acc + o.total) (0 : Int)
  { total_orders := orders.length
    paid_orders := paid.length
    refunded_orders := refunded.length
    cancelled_orders := cancelled.length
    total_revenue := total_paid
    total_refunded := total_refunded
    net_revenue := total_paid - total_refunded
    avg_order_value := average_order_value orders }

/-- Embeds the `accumulate_product_qty` fold of `report.bestsellers_report`:
skips non-paid orders, otherwise folds each line item into the
insertion-ordered quantity dict. -/
def accumulate_product_qty (acc : List (String × Int)) (o : Order) :
    List (String × Int) :=
  if o.status != "paid" then acc
  else
    o.items.foldl
      (fun inner_acc item =>
        alSet item.1 ((alGet inner_acc item.1).getD 0 + item.2) inner_acc)
      acc

/-- The `product_qty` dict of `report.bestsellers_report`: quantity summed
per product id over the line items of paid orders, keys in first-seen order. -/
def product_qty (orders : List Order) : List (String × Int) :=
  orders.foldl accumulate_product_qty []

/-- Quantity sold of one product id, as read off the `product_qty` dict. -/
def qtyOf (orders : List Order) (pid : String) : Int :=
  (alGet (product_qty orders) pid).getD 0

/-- The `top_ids` list of `report.bestsellers_report`: the dict keys sorted
by quantity descending — a stable sort, as `sorted` in Python — truncated
to the first `k`. -/
def top_ids (orders : List Order) (k : Nat) : List String :=
  (((product_qty orders).map Prod.fst).mergeSort
      (fun a b => qtyOf orders b ≤ qtyOf orders a)).take k

/-- One record of the list returned by `report.bestsellers_report`. -/
structure BestsellerRec where
  product_id : String
  title : String
  price : Int
  quantity_sold : Int
  revenue : Int
deriving DecidableEq

/-- The `products_dict` of `report.bestsellers_report`: a dict keyed by
product id (for duplicate ids the last occurrence wins, as in a Python dict
comprehension). -/
def products_dict (products : List Product) : List (String × Product) :=
  products.foldl (fun d p => alSet p.id p d) []

/-- Embeds `report.bestsellers_report`: ids ranked by quantity descending,
stable, truncated to `k`, ids absent from `products` dropped, each kept id
enriched with title, price, quantity_sold and revenue = quantity × price. -/
def bestsellers_report (orders : List Order) (products : List Product)
    (k : Nat) : List BestsellerRec :=
  let pdict := products_dict products
  (top_ids orders k).filterMap
    (fun pid =>
      match alGet pdict pid with
      | none => none
      | some p =>
          some { product_id := pid, title := p.title, price := p.price,
                 quantity_sold := qtyOf orders pid,
                 revenue := qtyOf orders pid * p.price })

-- ============ Maybe (core/ftypes.py) ============

/-- A Python value of type `Optional[T]`: `Option α` with `none` standing
for Python `None`. -/
abbrev PyOpt (α : Type) := Option α

/-- Mirrors `ftypes.Maybe`: a frozen dataclass with a single field `value`
of Python type `Optional[T]`. `None` doubles as the Nothing sentinel. -/
structure Maybe (α : Type) where
  value : PyOpt α
deriving DecidableEq

namespace Maybe

/-- Mirrors `Maybe.some`: wraps the given Python value as-is (the source
performs no `None` check in this factory). -/
def some (v : PyOpt α) : Maybe α := ⟨v⟩

/-- Mirrors `Maybe.nothing`: stores Python `None`. -/
def nothing : Maybe α := ⟨Option.none⟩

/-- Mirrors `Maybe.is_some`: `self.value is not None`. -/
def is_some (m : Maybe α) : Bool := m.value.isSome

/-- Mirrors `Maybe.is_none`: `self.value is None`. -/
def is_none (m : Maybe α) : Bool := m.value.isNone

/-- Mirrors `Maybe.map`: applies `fn` to the stored Python value when
`is_some`, else returns `nothing`. -/
def map (m : Maybe α) (fn : PyOpt α → PyOpt β) : Maybe β :=
  if m.is_some then Maybe.some (fn m.value) else Maybe.nothing

/-- Mirrors `Maybe.bind`. -/
def bind (m : Maybe α) (fn : PyOpt α → Maybe β) : Maybe β :=
  if m.is_some then fn m.value else Maybe.nothing

/-- Mirrors `Maybe.get_or_else`. -/
def get_or_else (m : Maybe α) (default : PyOpt α) : PyOpt α :=
  if m.is_some then m.value else default

end Maybe

-- ============ Event bus (core/frp.py) ============

/-- A Python value stored in an event payload dict: a string, an int, or
`None` (the default of `payload.get`). -/
inductive PVal where
  | vnone : PVal
  | vstr : String → PVal
  | vint : Int → PVal
deriving DecidableEq

/-- Mirrors `core.domain.Event`; the free-form payload dict is an
insertion-ordered association list over payload values. -/
structure Event where
  id : String
  ts : String
  name : String
  payload : List (String × PVal)

/-- Embeds `payload.get(k)` with default `None`. -/
def pget (payload : List (String × PVal)) (k : String) : PVal :=
  match payload.find? (fun kv => kv.1 == k) with
  | Option.some kv => kv.2
  | Option.none => PVal.vnone

/-- Mirrors `frp.EventBus`, generic over the state type (the Python state
is an arbitrary dict): an immutable ordered sequence of
(event_name, handler) subscriptions. -/
structure EventBus (σ : Type) where
  subscribers : List (String × (Event → σ → σ))

/-- Mirrors `EventBus.subscribe`: returns a new bus with the pair appended. -/
def EventBus.subscribe (bus : EventBus σ) (event_name : String)
    (handler : Event → σ → σ) : EventBus σ :=
  ⟨bus.subscribers ++ [(event_name, handler)]⟩

/-- Mirrors `EventBus.publish`: folds the handlers subscribed under
`event.name`, in subscription order, over the state. -/
def EventBus.publish (bus : EventBus σ) (event : Event) (state : σ) : σ :=
  let matching_handlers :=
    (bus.subscribers.filter (fun nh => nh.1 == event.name)).map Prod.snd
  matching_handlers.foldl (fun current_state handler => handler event current_state) state

/-- Embeds `frp.apply_events`: a left fold of `publish` over the event
sequence, exactly as the source's `reduce`. -/
def apply_events (bus : EventBus σ) (events : List Event) (state : σ) : σ :=
  events.foldl (fun s e => bus.publish e s) state

/-- Modelled from the spec's words for the refinement comparison:
"equivalent to repeated publish calls" — state₀ = S₀ and
stateᵢ = publish(Eᵢ, stateᵢ₋₁), recursively, left to right. -/
def publishSeq (bus : EventBus σ) : List Event → σ → σ
  | [], state => state
  | e :: es, state => publishSeq bus es (bus.publish e state)

-- ============ Shop state and the REMOVE handler (core/frp.py) ============

/-- The application state dict built by `frp.initial_state` and threaded
through the canonical handlers: active carts keyed by the payload's cart id,
holding per-product quantities; sales/refund records; counters; last event
name (`none` initially, as in `initial_state`). -/
structure ShopState where
  active_carts : List (PVal × List (PVal × Int))
  current_sales : List (List (String × PVal))
  refunds : List (List (String × PVal))
  total_revenue : Int
  total_refunded : Int
  last_event : Option String
deriving DecidableEq

/-- Embeds `frp.handle_remove_from_cart`: reads cart_id and product_id from
the payload, takes the cart's item dict (empty when the cart id is absent),
filters the product out, and writes the updated dict back under cart_id —
creating the entry when it was absent — while setting `last_event`. -/
def handle_remove_from_cart (event : Event) (state : ShopState) : ShopState :=
  let cart_id := pget event.payload "cart_id"
  let product_id := pget event.payload "product_id"
  let cart_items := (alGet state.active_carts cart_id).getD []
  let updated_items := cart_items.filter (fun kv => kv.1 != product_id)
  { state with
    active_carts := alSet cart_id updated_items state.active_carts,
    last_event := Option.some event.name }

-- ============ validate_order (core/transforms.py) ============

/-- Embeds the inner `validate_item` of `transforms.validate_order`:
missing stock key or insufficient stock yields a Left with the source's
message, else Right of the item. -/
def validate_item (stock : List (String × Int)) (item : String × Int) :
    Except ErrDict (String × Int) :=
  match alGet stock item.1 with
  | Option.none => .error ⟨"Товар " ++ item.1 ++ " отсутствует в базе"⟩
  | Option.some have_qty =>
      if have_qty < item.2 then
        .error ⟨"Недостаточно товара " ++ item.1 ++ " на складе"⟩
      else .ok item

/-- Embeds `transforms.validate_order` (the unused `discounts` parameter is
dropped): validates every item, returns the first error if any, else a copy
of the order with status "validated" and the placeholder total
Σ qty × 1000. -/
def validate_order (order : Order) (stock : List (String × Int)) :
    Except ErrDict Order :=
  let results := order.items.map (validate_item stock)
  let errors := results.filterMap
    (fun r => match r with | .error e => Option.some e | .ok _ => Option.none)
  match errors with
  | e :: _ => .error e
  | [] =>
      let total := (order.items.map (fun item => item.2 * 1000)).sum
      .ok { id := order.id, user_id := order.user_id, items := order.items,
            total := total, ts := order.ts, status := "validated" }

-- ============ Shared helper lemmas ============

theorem alGet_nil [BEq κ] (k : κ) : alGet ([] : List (κ × β)) k = Option.none := rfl

theorem alGet_cons [BEq κ] (kv : κ × β) (d : List (κ × β)) (k : κ) :
    alGet (kv :: d) k = if kv.1 == k then Option.some kv.2 else alGet d k := by
  cases h : kv.1 == k <;> simp [alGet, List.find?, h]

theorem alGet_alSet [BEq κ] [LawfulBEq κ] (k pid : κ) (v : β) (d : List (κ × β)) :
    alGet (alSet k v d) pid = if pid == k then Option.some v else alGet d pid := by
  induction d with
  | nil =>
      by_cases h : pid = k
      · subst h; simp [alGet, alSet, List.find?]
      · have h1 : (pid == k) = false := beq_eq_false_iff_ne.mpr h
        have h2 : (k == pid) = false := beq_eq_false_iff_ne.mpr (Ne.symm h)
        simp [alGet, alSet, List.find?, h1, h2]
  | cons kv rest ih =>
      by_cases hk : kv.1 = k
      · have hb : (kv.1 == k) = true := beq_iff_eq.mpr hk
        by_cases hp : pid = k
        · subst hp
          simp [alSet, hb, alGet_cons]
        · have h1 : (pid == k) = false := beq_eq_false_iff_ne.mpr hp
          have h2 : (k == pid) = false := beq_eq_false_iff_ne.mpr (Ne.symm hp)
          have h3 : (kv.1 == pid) = false := by rw [hk]; exact h2
          simp [alSet, hb, alGet_cons, h1, h2, h3]
      · have hb : (kv.1 == k) = false := beq_eq_false_iff_ne.mpr hk
        by_cases hp : pid = kv.1
        · have h3 : (kv.1 == pid) = true := beq_iff_eq.mpr hp.symm
          have h1 : (pid == k) = false := by
            apply beq_eq_false_iff_ne.mpr
            intro he; exact hk (hp ▸ he)
          simp [alSet, hb, alGet_cons, h1, h3]
        · have h3 : (kv.1 == pid) = false :=
            beq_eq_false_iff_ne.mpr (fun he => hp he.symm)
          simp [alSet, hb, alGet_cons, h3, ih]

theorem foldl_add_eq_sum (f : Order → Int) (l : List Order) (i : Int) :
    l.foldl (fun acc o => acc + f o) i = i + (l.map f).sum := by
  induction l generalizing i with
  | nil => simp
  | cons o rest ih => simp [ih, add_assoc]

theorem sum_map_mul_thousand (l : List (String × Int)) :
    (l.map (fun item => item.2 * 1000)).sum = 1000 * (l.map Prod.snd).sum := by
  induction l with
  | nil => simp
  | cons it rest ih => simp [ih]; ring

-- ============ C8: cart merge invariant ============

/-- C8: for every cart `cart`, product id `p` and quantity `n > 0`,
`remove_from_cart (add_to_cart cart p n) p` contains no items pair whose
product id equals `p`. -/
theorem c8_cart_merge_invariant (cart : Cart) (p : String) (n : Int)
    (h : 0 < n) :
    ((remove_from_cart (add_to_cart cart p n) p).items.all
        (fun item => item.1 != p)) = true ∧
    ∀ item ∈ (remove_from_cart (add_to_cart cart p n) p).items, item.1 ≠ p := by
  constructor
  · apply List.all_eq_true.mpr
    intro item hmem
    simp only [remove_from_cart] at hmem
    exact (List.mem_filter.mp hmem).2
  · intro item hmem
    simp only [remove_from_cart] at hmem
    have hb := (List.mem_filter.mp hmem).2
    simpa using hb

/-- A fixed cart used to instantiate C8. -/
def cartW : Cart := ⟨"c1", "u1", [("p1", 1), ("p2", 2)]⟩

/-- Witness for C8 at the concrete cart `cartW`, `p = "p1"`, `n = 2`. -/
theorem c8_cart_merge_invariant_witness :
    ((remove_from_cart (add_to_cart cartW "p1" 2) "p1").items.all
        (fun item => item.1 != "p1")) = true :=
  (c8_cart_merge_invariant cartW "p1" 2 (by decide)).1

-- ============ C10: validate_order frame ============

/-- C10: whenever `validate_order` succeeds, the returned order keeps the
input's id, user_id, items and ts; only status (now "validated") and total
(the placeholder 1000 × Σ qty) differ. -/
theorem c10_validate_order_frame (order : Order) (stock : List (String × Int))
    (o2 : Order) (h : validate_order order stock = Except.ok o2) :
    o2.id = order.id ∧ o2.user_id = order.user_id ∧ o2.items = order.items ∧
    o2.ts = order.ts ∧ o2.status = "validated" ∧
    o2.total = 1000 * (order.items.map Prod.snd).sum := by
  unfold validate_order at h
  dsimp only at h
  split at h
  · exact absurd h (by simp)
  · rw [Except.ok.injEq] at h
    subst h
    exact ⟨rfl, rfl, rfl, rfl, rfl, sum_map_mul_thousand order.items⟩

/-- A fixed order and stock used to instantiate C10. -/
def orderW : Order := ⟨"o1", "u1", [("p1", 2), ("p2", 1)], 0, "t0", "pending"⟩

def stockW : List (String × Int) := [("p1", 5), ("p2", 3)]

/-- Witness for C10: `validate_order orderW stockW` succeeds and the frame
conditions hold at the resulting concrete order. -/
theorem c10_validate_order_frame_witness :
    (⟨"o1", "u1", [("p1", 2), ("p2", 1)], 3000, "t0", "validated"⟩ : Order).id
        = orderW.id ∧
    (⟨"o1", "u1", [("p1", 2), ("p2", 1)], 3000, "t0", "validated"⟩ : Order).user_id
        = orderW.user_id ∧
    (⟨"o1", "u1", [("p1", 2), ("p2", 1)], 3000, "t0", "validated"⟩ : Order).items
        = orderW.items ∧
    (⟨"o1", "u1", [("p1", 2), ("p2", 1)], 3000, "t0", "validated"⟩ : Order).ts
        = orderW.ts ∧
    (⟨"o1", "u1", [("p1", 2), ("p2", 1)], 3000, "t0", "validated"⟩ : Order).status
        = "validated" ∧
    (⟨"o1", "u1", [("p1", 2), ("p2", 1)], 3000, "t0", "validated"⟩ : Order).total
        = 1000 * (orderW.items.map Prod.snd).sum :=
  c10_validate_order_frame orderW stockW
    ⟨"o1", "u1", [("p1", 2), ("p2", 1)], 3000, "t0", "validated"⟩ rfl

-- ============ C5: Maybe laws ============

/-- C5 counterexample: the claim says `Maybe.some v` is a Some value for
every value `v`, but the source uses `None` as the Nothing sentinel, so
`Maybe.some(None)` has `is_some` false (it is indistinguishable from
`Maybe.nothing`), and `map` on it does not produce `Maybe.some (f None)`
for the constant-`0` function. -/
theorem c5_maybe_some_none_counterexample :
    (Maybe.some (Option.none : PyOpt Int)).is_some = false ∧
    Maybe.some (Option.none : PyOpt Int) = Maybe.nothing ∧
    (Maybe.some (Option.none : PyOpt Int)).map
        (fun _ => (Option.some (0 : Int) : PyOpt Int))
      ≠ Maybe.some ((fun _ => (Option.some (0 : Int) : PyOpt Int))
          (Option.none : PyOpt Int)) := by
  refine ⟨rfl, rfl, ?_⟩
  decide

/-- C5 (amended): for every value `v` other than `None`, `Maybe.some v` is
a Some value (`is_some` holds, `is_none` does not) and
`(Maybe.some v).map f = Maybe.some (f v)`; `map` and `bind` on a Nothing
return Nothing for every function (so the function is never consulted);
`get_or_else` returns the contained value on a Some and the default on a
Nothing (and is total, hence never raises). -/
theorem c5_maybe_laws {α β : Type} (v : PyOpt α) (hv : v.isSome = true)
    (f : PyOpt α → PyOpt β) (g : PyOpt α → PyOpt β) (gb : PyOpt α → Maybe β)
    (d : PyOpt α) :
    (Maybe.some v).is_some = true ∧
    (Maybe.some v).is_none = false ∧
    (Maybe.some v).map f = Maybe.some (f v) ∧
    (Maybe.nothing : Maybe α).map g = Maybe.nothing ∧
    (Maybe.nothing : Maybe α).bind gb = Maybe.nothing ∧
    (Maybe.some v).get_or_else d = v ∧
    (Maybe.nothing : Maybe α).get_or_else d = d := by
  refine ⟨hv, ?_, ?_, ?_, ?_, ?_, ?_⟩
  · simp [Maybe.is_none, Maybe.some, Option.isNone_eq_false_iff,
      ← Option.isSome_iff_exists]
    exact hv
  · simp [Maybe.map, Maybe.is_some, Maybe.some, hv]
  · simp [Maybe.map, Maybe.is_some, Maybe.nothing]
  · simp [Maybe.bind, Maybe.is_some, Maybe.nothing]
  · simp [Maybe.get_or_else, Maybe.is_some, Maybe.some, hv]
  · simp [Maybe.get_or_else, Maybe.is_some, Maybe.nothing]

/-- Witness for C5 at `v = some 3`, `f = g = identity`, `gb` constant
nothing, `d = some 7`. -/
theorem c5_maybe_laws_witness :
    (Maybe.some (Option.some (3 : Int))).is_some = true ∧
    (Maybe.some (Option.some (3 : Int))).is_none = false ∧
    (Maybe.some (Option.some (3 : Int))).map id
      = Maybe.some (id (Option.some (3 : Int))) ∧
    (Maybe.nothing : Maybe Int).map id = Maybe.nothing ∧
    (Maybe.nothing : Maybe Int).bind (fun _ => (Maybe.nothing : Maybe Int))
      = Maybe.nothing ∧
    (Maybe.some (Option.some (3 : Int))).get_or_else (Option.some 7)
      = Option.some 3 ∧
    (Maybe.nothing : Maybe Int).get_or_else (Option.some 7) = Option.some 7 :=
  c5_maybe_laws (Option.some 3) rfl id id (fun _ => (Maybe.nothing : Maybe Int))
    (Option.some 7)

-- ============ C4: event fold ============

/-- C4: `apply_events` (the source's fold of `publish`) equals the
spec-side sequence of repeated publish calls, left to right — it is a pure
Lean function, hence deterministic — and publishing an event whose name
matches no subscription leaves the state unchanged. -/
theorem c4_apply_events_fold {σ : Type} (bus : EventBus σ)
    (events : List Event) (state : σ) :
    apply_events bus events state = publishSeq bus events state ∧
    ∀ e : Event, (∀ nh ∈ bus.subscribers, nh.1 ≠ e.name) →
      bus.publish e state = state := by
  constructor
  · induction events generalizing state with
    | nil => rfl
    | cons e es ih => simp [apply_events, publishSeq, List.foldl_cons] at ih ⊢; exact ih _
  · intro e hnone
    have hfil : bus.subscribers.filter (fun nh => nh.1 == e.name) = [] := by
      apply List.filter_eq_nil_iff.mpr
      intro nh hmem
      simpa using hnone nh hmem
    simp [EventBus.publish, hfil]

/-- A fixed bus over integer states used to instantiate C4. -/
def busW : EventBus Int := ⟨[("A", fun _ s => s + 1)]⟩

/-- A matching and a non-matching event for the C4 witness. -/
def evA : Event := ⟨"e1", "t1", "A", []⟩

def evB : Event := ⟨"e2", "t2", "B", []⟩

/-- Witness for C4: the fold equation at a concrete bus, event list and
state, and the unchanged-state property for an unmatched event. -/
theorem c4_apply_events_fold_witness :
    apply_events busW [evA, evB] 0 = publishSeq busW [evA, evB] 0 ∧
    busW.publish evB 0 = 0 :=
  ⟨(c4_apply_events_fold busW [evA, evB] 0).1,
   (c4_apply_events_fold busW [evA, evB] 0).2 evB
     (by
       intro nh hmem
       simp only [busW, List.mem_singleton] at hmem
       subst hmem
       decide)⟩

-- ============ C9: REMOVE on an absent cart id ============

/-- C9: publishing a REMOVE whose payload cart_id is absent from
`active_carts` yields a state that maps that cart_id to an empty item
mapping (a fresh empty cart entry is created), sets `last_event` to the
event's name, and leaves every other cart entry unchanged. -/
theorem c9_remove_creates_empty_cart (state : ShopState) (event : Event)
    (h : alGet state.active_carts (pget event.payload "cart_id")
          = Option.none) :
    alGet (handle_remove_from_cart event state).active_carts
        (pget event.payload "cart_id") = Option.some [] ∧
    (handle_remove_from_cart event state).last_event
        = Option.some event.name ∧
    ∀ k, k ≠ pget event.payload "cart_id" →
      alGet (handle_remove_from_cart event state).active_carts k
        = alGet state.active_carts k := by
  unfold handle_remove_from_cart
  dsimp only
  rw [h]
  refine ⟨?_, rfl, ?_⟩
  · rw [alGet_alSet]
    simp
  · intro k hk
    rw [alGet_alSet]
    simp [beq_eq_false_iff_ne.mpr hk]

/-- A fixed state (one existing cart "c0") and a REMOVE event addressing
the absent cart "c1", used to instantiate C9. -/
def stateW : ShopState :=
  ⟨[(PVal.vstr "c0", [(PVal.vstr "p0", 1)])], [], [], 0, 0, Option.none⟩

def evRemove : Event :=
  ⟨"e9", "t9", "REMOVE",
   [("cart_id", PVal.vstr "c1"), ("product_id", PVal.vstr "p0")]⟩

/-- Witness for C9 at `stateW` and `evRemove`. -/
theorem c9_remove_creates_empty_cart_witness :
    alGet (handle_remove_from_cart evRemove stateW).active_carts
        (pget evRemove.payload "cart_id") = Option.some [] ∧
    (handle_remove_from_cart evRemove stateW).last_event
        = Option.some evRemove.name ∧
    alGet (handle_remove_from_cart evRemove stateW).active_carts
        (PVal.vstr "c0") = alGet stateW.active_carts (PVal.vstr "c0") := by
  have t := c9_remove_creates_empty_cart stateW evRemove (by decide)
  exact ⟨t.1, t.2.1, t.2.2 (PVal.vstr "c0") (by decide)⟩

-- ============ C2: flatten_categories duplicates children ============

/-- The two-category tree r ← a used to exhibit the duplication. -/
def catR : Category := ⟨"r", "R", Option.none⟩

def catA : Category := ⟨"a", "A", Option.some "r"⟩

/-- C2 (evaluation at the failing input): the source returns the root, the
direct child, and then the child's flattened subtree — which begins with
the child again — so `a` is listed twice, contradicting the claim (and the
function's own docstring, which states the duplication of direct children
was removed and shows a duplicate-free example). -/
theorem c2_flatten_duplicates :
    flatten_categories [catR, catA] "r" = [catR, catA, catA] ∧
    ((flatten_categories [catR, catA] "r").map Category.id).count "a" = 2 := by
  decide

-- ============ C6: collect_products_recursive ============

/-- The orphan product whose category id names a nonexistent category. -/
def prodOrphan : Product := ⟨"p1", "A", 1000, "r", []⟩

/-- C6 counterexample: with no categories and one product whose category_id
equals the root id, the claim demands the product be returned (its
category_id lies in {root_id} ∪ ids of the flattened subtree), but the
source filters on the ids of the flattened (here empty) subtree only and
returns nothing. -/
theorem c6_root_id_not_added_counterexample :
    collect_products_recursive [] [prodOrphan] "r" = [] ∧
    prodOrphan.category_id = "r" ∧
    flatten_categories [] "r" = [] := ⟨rfl, rfl, rfl⟩

/-- C6 (amended): `collect_products_recursive` returns exactly the products
whose category_id is among the ids of `flatten_categories cats root_id`
(the root id itself is not added to the set), preserving the original
product order; in particular the result is empty whenever the flattened
subtree is (e.g. when root_id matches no category). -/
theorem c6_collect_products_filter (cats : List Category)
    (prods : List Product) (root_id : String) :
    (∀ p, p ∈ collect_products_recursive cats prods root_id ↔
       p ∈ prods ∧ ∃ c ∈ flatten_categories cats root_id,
         c.id = p.category_id) ∧
    List.Sublist (collect_products_recursive cats prods root_id) prods ∧
    (flatten_categories cats root_id = [] →
       collect_products_recursive cats prods root_id = []) := by
  refine ⟨?_, ?_, ?_⟩
  · intro p
    unfold collect_products_recursive
    dsimp only
    rw [List.mem_filter]
    constructor
    · rintro ⟨hp, hc⟩
      have hmem : p.category_id
          ∈ (flatten_categories cats root_id).map Category.id := by
        simpa using hc
      rcases List.mem_map.mp hmem with ⟨c, hcmem, hid⟩
      exact ⟨hp, c, hcmem, hid⟩
    · rintro ⟨hp, c, hcmem, hid⟩
      refine ⟨hp, ?_⟩
      have hmem : p.category_id
          ∈ (flatten_categories cats root_id).map Category.id :=
        List.mem_map.mpr ⟨c, hcmem, hid⟩
      simpa using hmem
  · exact List.filter_sublist _
  · intro hflat
    unfold collect_products_recursive
    dsimp only
    rw [hflat]
    simp

/-- A one-category catalog with a product directly in the root, used to
instantiate C6. -/
def catRoot : Category := ⟨"r", "Root", Option.none⟩

def prodInRoot : Product := ⟨"p2", "B", 500, "r", []⟩

/-- Witness for C6: the product sitting in the (existing) root category is
collected. -/
theorem c6_collect_products_filter_witness :
    prodInRoot ∈ collect_products_recursive [catRoot] [prodInRoot] "r" :=
  ((c6_collect_products_filter [catRoot] [prodInRoot] "r").1 prodInRoot).mpr
    ⟨by decide, catRoot, by decide, rfl⟩

-- ============ C3: sales summary conservation ============

/-- C3: `total_revenue` is the sum of totals over paid orders,
`total_refunded` the sum over refunded orders, `net_revenue` their
difference, and `average_order_value` is the mean of totals over paid
orders — `0` when there is no paid order, so no division by zero occurs. -/
theorem c3_sales_summary_conservation (orders : List Order) :
    (sales_summary orders).total_revenue
      = ((orders.filter (fun o => o.status == "paid")).map Order.total).sum ∧
    (sales_summary orders).total_refunded
      = ((orders.filter (fun o => o.status == "refunded")).map Order.total).sum ∧
    (sales_summary orders).net_revenue
      = (sales_summary orders).total_revenue
          - (sales_summary orders).total_refunded ∧
    (sales_summary orders).avg_order_value = average_order_value orders ∧
    (orders.filter (fun o => o.status == "paid") = [] →
       average_order_value orders = 0) ∧
    (orders.filter (fun o => o.status == "paid") ≠ [] →
       average_order_value orders
         = (((orders.filter (fun o => o.status == "paid")).map
               Order.total).sum : ℚ)
             / ((orders.filter (fun o => o.status == "paid")).length : ℚ)) := by
  refine ⟨?_, ?_, rfl, rfl, ?_, ?_⟩
  · unfold sales_summary
    dsimp only
    rw [foldl_add_eq_sum]
    simp
  · unfold sales_summary
    dsimp only
    rw [foldl_add_eq_sum]
    simp
  · intro hempty
    unfold average_order_value
    dsimp only
    rw [hempty]
    simp
  · intro hne
    unfold average_order_value
    dsimp only
    have hie : (orders.filter (fun o => o.status == "paid")).isEmpty = false := by
      simpa [List.isEmpty_iff] using hne
    rw [hie]
    rw [foldl_add_eq_sum]
    simp

/-- Three fixed orders (two paid, one refunded) instantiating C3. -/
def ordersW : List Order :=
  [⟨"o1", "u1", [], 1000, "2025-06-22T10:00:00", "paid"⟩,
   ⟨"o2", "u2", [], 3000, "2025-06-22T11:00:00", "paid"⟩,
   ⟨"o3", "u1", [], 500, "2025-06-23T09:00:00", "refunded"⟩]

/-- Witness for C3 at `ordersW`, discharging the nonempty-paid hypothesis. -/
theorem c3_sales_summary_conservation_witness :
    (sales_summary ordersW).total_revenue
      = ((ordersW.filter (fun o => o.status == "paid")).map Order.total).sum ∧
    average_order_value ordersW
      = (((ordersW.filter (fun o => o.status == "paid")).map
            Order.total).sum : ℚ)
          / ((ordersW.filter (fun o => o.status == "paid")).length : ℚ) := by
  have t := c3_sales_summary_conservation ordersW
  exact ⟨t.1, t.2.2.2.2.2 (by decide)⟩

-- ============ C1: checkout atomicity ============

theorem foldl_accumulate_error (products : List Product) (e : ErrDict)
    (items : List (String × Int)) :
    items.foldl (accumulate_total products) (Except.error e)
      = Except.error e := by
  induction items with
  | nil => rfl
  | cons it rest ih => exact ih

theorem foldl_accumulate_ok (products : List Product)
    (items : List (String × Int)) (t : Int)
    (h : ∀ item ∈ items, (get_price products item.1).isSome = true) :
    items.foldl (accumulate_total products) (Except.ok t)
      = Except.ok (t + itemsTotal products items) := by
  induction items generalizing t with
  | nil => simp [itemsTotal]
  | cons it rest ih =>
      have hit := h it (List.mem_cons_self it rest)
      rcases Option.isSome_iff_exists.mp hit with ⟨price, hp⟩
      have hrest : ∀ item ∈ rest, (get_price products item.1).isSome = true :=
        fun item hm => h item (List.mem_cons_of_mem _ hm)
      rw [List.foldl_cons]
      have hstep : accumulate_total products (Except.ok t) it
          = Except.ok (t + price * it.2) := by
        simp [accumulate_total, hp]
      rw [hstep, ih _ hrest]
      rw [Except.ok.injEq]
      unfold itemsTotal
      simp [hp]
      ring

theorem foldl_accumulate_first_error (products : List Product)
    (items : List (String × Int)) (t : Int)
    (h : ∃ item ∈ items, get_price products item.1 = Option.none) :
    ∃ pid, (∃ q, (pid, q) ∈ items) ∧ get_price products pid = Option.none ∧
      items.foldl (accumulate_total products) (Except.ok t)
        = Except.error ⟨notFoundMsg pid⟩ := by
  induction items generalizing t with
  | nil => rcases h with ⟨item, hmem, _⟩; cases hmem
  | cons it rest ih =>
      cases hp : get_price products it.1 with
      | none =>
          refine ⟨it.1, ⟨it.2, List.mem_cons_self it rest⟩, hp, ?_⟩
          rw [List.foldl_cons]
          have hstep : accumulate_total products (Except.ok t) it
              = Except.error ⟨notFoundMsg it.1⟩ := by
            simp [accumulate_total, hp]
          rw [hstep, foldl_accumulate_error]
      | some price =>
          have hrest : ∃ item ∈ rest, get_price products item.1 = Option.none := by
            rcases h with ⟨item, hmem, hnone⟩
            rcases List.mem_cons.mp hmem with heq | hm
            · subst heq; rw [hp] at hnone; cases hnone
            · exact ⟨item, hm, hnone⟩
          rcases ih (t + price * it.2) hrest with ⟨pid, ⟨q, hq⟩, hnone, heq⟩
          refine ⟨pid, ⟨q, List.mem_cons_of_mem _ hq⟩, hnone, ?_⟩
          rw [List.foldl_cons]
          have hstep : accumulate_total products (Except.ok t) it
              = Except.ok (t + price * it.2) := by
            simp [accumulate_total, hp]
          rw [hstep, heq]

/-- C1: checkout is atomic. If some cart item's product id has no price in
the catalog, checkout returns a Left whose error description names a
missing product id (the first one, by the short-circuiting fold) and no
Order is produced; if every product id resolves, checkout returns a Right
order with status "paid" whose total is the sum, in cart order, of
price(pid) × qty. -/
theorem c1_checkout_atomic (cart : Cart) (ts oid : String)
    (products : List Product) :
    ((∃ item ∈ cart.items, get_price products item.1 = Option.none) →
       ∃ pid, (∃ q, (pid, q) ∈ cart.items) ∧
         get_price products pid = Option.none ∧
         checkout cart ts oid products = Except.error ⟨notFoundMsg pid⟩) ∧
    ((∀ item ∈ cart.items, (get_price products item.1).isSome = true) →
       checkout cart ts oid products
         = Except.ok (⟨oid, cart.user_id, cart.items,
             itemsTotal products cart.items, ts, "paid"⟩ : Order)) := by
  constructor
  · intro h
    rcases foldl_accumulate_first_error products cart.items 0 h with
      ⟨pid, hq, hnone, heq⟩
    refine ⟨pid, hq, hnone, ?_⟩
    unfold checkout
    rw [heq]
  · intro h
    unfold checkout
    rw [foldl_accumulate_ok products cart.items 0 h]
    simp

/-- The catalog and the two carts (one with an unknown product id, one
resolvable) instantiating C1. -/
def prodsC1 : List Product := [⟨"p1", "P", 100, "c", []⟩]

def cartBad : Cart := ⟨"cb", "u", [("px", 1)]⟩

def cartGood : Cart := ⟨"cg", "u", [("p1", 2)]⟩

/-- Witness for C1: the missing id "px" fails checkout with the error text
naming it, and the resolvable cart checks out as a paid order with total
2 × 100. -/
theorem c1_checkout_atomic_witness :
    checkout cartBad "t" "ob" prodsC1 = Except.error ⟨notFoundMsg "px"⟩ ∧
    checkout cartGood "t" "og" prodsC1
      = Except.ok ⟨"og", "u", [("p1", 2)], 200, "t", "paid"⟩ := by
  constructor
  · rcases (c1_checkout_atomic cartBad "t" "ob" prodsC1).1 (by decide) with
      ⟨pid, ⟨q, hq⟩, _, heq⟩
    have hpx : pid = "px" ∧ q = 1 := by simpa [cartBad] using hq
    rw [hpx.1] at heq
    exact heq
  · exact (c1_checkout_atomic cartGood "t" "og" prodsC1).2 (by decide)

-- ============ C7: bestsellers report ============

theorem foldl_items_qty (pid : String) (items : List (String × Int))
    (acc : List (String × Int)) :
    (alGet (items.foldl
        (fun inner_acc item =>
          alSet item.1 ((alGet inner_acc item.1).getD 0 + item.2) inner_acc)
        acc) pid).getD 0
      = (alGet acc pid).getD 0
        + ((items.filter (fun item => item.1 == pid)).map Prod.snd).sum := by
  induction items generalizing acc with
  | nil => simp
  | cons it rest ih =>
      rw [List.foldl_cons, ih]
      by_cases hp : it.1 = pid
      · have hb : (it.1 == pid) = true := beq_iff_eq.mpr hp
        have hb2 : (pid == it.1) = true := beq_iff_eq.mpr hp.symm
        rw [alGet_alSet]
        simp only [hb, hb2, List.filter_cons, if_pos, List.map_cons,
          List.sum_cons, Option.getD_some, if_true]
        rw [hp]
        ring
      · have hb : (it.1 == pid) = false := beq_eq_false_iff_ne.mpr hp
        have hb2 : (pid == it.1) = false := beq_eq_false_iff_ne.mpr (Ne.symm hp)
        rw [alGet_alSet]
        simp [hb, hb2, List.filter_cons]

theorem qty_accumulate (pid : String) (o : Order)
    (acc : List (String × Int)) :
    (alGet (accumulate_product_qty acc o) pid).getD 0
      = (alGet acc pid).getD 0
        + (if o.status == "paid"
           then ((o.items.filter (fun item => item.1 == pid)).map Prod.snd).sum
           else 0) := by
  unfold accumulate_product_qty
  by_cases hs : o.status = "paid"
  · have hb : (o.status == "paid") = true := beq_iff_eq.mpr hs
    simp [bne, hb, foldl_items_qty]
  · have hb : (o.status == "paid") = false := beq_eq_false_iff_ne.mpr hs
    simp [bne, hb]

theorem qty_foldl_orders (pid : String) (orders : List Order)
    (acc : List (String × Int)) :
    (alGet (orders.foldl accumulate_product_qty acc) pid).getD 0
      = (alGet acc pid).getD 0
        + ((orders.filter (fun o => o.status == "paid")).map
            (fun o => ((o.items.filter
                (fun item => item.1 == pid)).map Prod.snd).sum)).sum := by
  induction orders generalizing acc with
  | nil => simp
  | cons o rest ih =>
      rw [List.foldl_cons, ih, qty_accumulate]
      cases hs : (o.status == "paid") <;>
        simp [hs, List.filter_cons] <;> ring

theorem qtyOf_characterization (orders : List Order) (pid : String) :
    qtyOf orders pid
      = ((orders.filter (fun o => o.status == "paid")).map
          (fun o => ((o.items.filter
              (fun item => item.1 == pid)).map Prod.snd).sum)).sum := by
  unfold qtyOf product_qty
  rw [qty_foldl_orders]
  simp [alGet]

theorem alGet_foldl_products (l : List Product) (d : List (String × Product))
    (pid : String) (p : Product)
    (h : alGet (l.foldl (fun dd q => alSet q.id q dd) d) pid = Option.some p) :
    (p ∈ l ∧ p.id = pid) ∨ alGet d pid = Option.some p := by
  induction l generalizing d with
  | nil => exact Or.inr h
  | cons q rest ih =>
      rcases ih _ h with ⟨hp, hid⟩ | hbase
      · exact Or.inl ⟨List.mem_cons_of_mem _ hp, hid⟩
      · rw [alGet_alSet] at hbase
        by_cases hq : pid = q.id
        · have hb : (pid == q.id) = true := beq_iff_eq.mpr hq
          rw [hb] at hbase
          simp only [if_true, Option.some.injEq] at hbase
          refine Or.inl ⟨?_, ?_⟩
          · rw [← hbase]; exact List.mem_cons_self q rest
          · rw [← hbase]; exact hq.symm
        · have hb : (pid == q.id) = false := beq_eq_false_iff_ne.mpr hq
          rw [hb] at hbase
          simp only [Bool.false_eq_true, if_false] at hbase
          exact Or.inr hbase

theorem alGet_products_dict (products : List Product) (pid : String)
    (p : Product)
    (h : alGet (products_dict products) pid = Option.some p) :
    p ∈ products ∧ p.id = pid := by
  rcases alGet_foldl_products products [] pid p h with hgood | hbase
  · exact hgood
  · simp [alGet] at hbase

theorem qtyLe_trans (orders : List Order) (a b c : String)
    (h1 : decide (qtyOf orders b ≤ qtyOf orders a) = true)
    (h2 : decide (qtyOf orders c ≤ qtyOf orders b) = true) :
    decide (qtyOf orders c ≤ qtyOf orders a) = true := by
  simp only [decide_eq_true_eq] at *
  exact le_trans h2 h1

theorem qtyLe_total (orders : List Order) (a b : String) :
    (decide (qtyOf orders b ≤ qtyOf orders a)
      || decide (qtyOf orders a ≤ qtyOf orders b)) = true := by
  rcases le_total (qtyOf orders b) (qtyOf orders a) with h | h
  · simp [h]
  · simp [h]

theorem mergeSort_pair {α : Type} (le : α → α → Bool) (a b : α) :
    [a, b].mergeSort le = if le a b then [a, b] else [b, a] := by
  rw [List.mergeSort]
  simp [List.merge]

/-- The products and paid orders of the bestsellers scenario. -/
def prodP1 : Product := ⟨"p1", "P1", 100000, "c", []⟩

def prodP2 : Product := ⟨"p2", "P2", 300000, "c", []⟩

def orderB1 : Order := ⟨"ob1", "u1", [("p1", 2), ("p2", 1)], 0, "t1", "paid"⟩

def orderB2 : Order := ⟨"ob2", "u2", [("p1", 1)], 0, "t2", "paid"⟩

/-- C7: `bestsellers_report` sums quantities per product id over paid
orders only (conjunct 2), emits at most `k` records (conjunct 3) that are
enriched from the product catalog with revenue = quantity × price
(conjunct 1), in descending quantity order (conjunct 4), with ties kept in
first-seen key order — the merge sort is stable: any two tied ids keep
their relative order from the first-seen key list (conjunct 5); the
concrete scenario of the claim computes to a single "p1" record with
quantity 3 and revenue 300000. -/
theorem c7_bestsellers_report_correct :
    bestsellers_report [orderB1, orderB2] [prodP1, prodP2] 1
      = [⟨"p1", "P1", 100000, 3, 300000⟩] ∧
    ∀ (orders : List Order) (products : List Product) (k : Nat),
      (∀ r ∈ bestsellers_report orders products k,
        ∃ p, alGet (products_dict products) r.product_id = Option.some p ∧
          p ∈ products ∧ p.id = r.product_id ∧ r.title = p.title ∧
          r.price = p.price ∧ r.quantity_sold = qtyOf orders r.product_id ∧
          r.revenue = r.quantity_sold * p.price) ∧
      (∀ pid, qtyOf orders pid
        = ((orders.filter (fun o => o.status == "paid")).map
            (fun o => ((o.items.filter
                (fun item => item.1 == pid)).map Prod.snd).sum)).sum) ∧
      (bestsellers_report orders products k).length ≤ k ∧
      List.Pairwise (fun a b => b.quantity_sold ≤ a.quantity_sold)
        (bestsellers_report orders products k) ∧
      (∀ a b, qtyOf orders a = qtyOf orders b →
        List.Sublist [a, b] ((product_qty orders).map Prod.fst) →
        List.Sublist [a, b]
          (((product_qty orders).map Prod.fst).mergeSort
            (fun x y => qtyOf orders y ≤ qtyOf orders x))) := by
  constructor
  · have hkeys : (product_qty [orderB1, orderB2]).map Prod.fst
        = ["p1", "p2"] := by decide
    have hms : (((product_qty [orderB1, orderB2]).map Prod.fst).mergeSort
        (fun x y => qtyOf [orderB1, orderB2] y ≤ qtyOf [orderB1, orderB2] x))
        = ["p1", "p2"] := by
      rw [hkeys, mergeSort_pair]
      decide
    unfold bestsellers_report top_ids
    rw [hms]
    decide
  · intro orders products k
    refine ⟨?_, ?_, ?_, ?_, ?_⟩
    · intro r hr
      unfold bestsellers_report at hr
      dsimp only at hr
      rcases List.mem_filterMap.mp hr with ⟨pid, hmem, hf⟩
      cases hg : alGet (products_dict products) pid with
      | none => rw [hg] at hf; cases hf
      | some p =>
          rw [hg] at hf
          have hf2 := Option.some.inj hf
          subst hf2
          rcases alGet_products_dict products pid p hg with ⟨hpmem, hpid⟩
          exact ⟨p, hg, hpmem, hpid, rfl, rfl, rfl, rfl⟩
    · intro pid
      exact qtyOf_characterization orders pid
    · unfold bestsellers_report
      dsimp only
      refine le_trans (List.length_filterMap_le _ _) ?_
      unfold top_ids
      exact List.length_take_le _ _
    · unfold bestsellers_report
      dsimp only
      rw [List.pairwise_filterMap]
      have hsorted : List.Pairwise
          (fun a b => decide (qtyOf orders b ≤ qtyOf orders a) = true)
          (top_ids orders k) := by
        unfold top_ids
        apply List.Pairwise.sublist (List.take_sublist _ _)
        exact List.sorted_mergeSort
          (fun x y z h1 h2 => qtyLe_trans orders x y z h1 h2)
          (fun x y => qtyLe_total orders x y) _
      apply List.Pairwise.imp ?_ hsorted
      intro a b hab x hx y hy
      cases hga : alGet (products_dict products) a with
      | none => rw [hga] at hx; cases hx
      | some pa =>
          rw [hga] at hx
          cases hgb : alGet (products_dict products) b with
          | none => rw [hgb] at hy; cases hy
          | some pb =>
              rw [hgb] at hy
              have hx2 := Option.some.inj (Option.mem_def.mp hx)
              have hy2 := Option.some.inj (Option.mem_def.mp hy)
              rw [← hx2, ← hy2]
              simpa using hab
    · intro a b hq hsub
      apply List.sublist_mergeSort
        (fun x y z h1 h2 => qtyLe_trans orders x y z h1 h2)
        (fun x y => qtyLe_total orders x y) ?_ hsub
      refine List.Pairwise.cons ?_ (List.pairwise_singleton _ _)
      intro y hy
      simp only [List.mem_singleton] at hy
      subst hy
      simp [hq]

/-- Witness for C7: the membership conjunct applied to the single record
produced by the scenario, discharging the membership hypothesis, plus the
scenario equation itself. -/
theorem c7_bestsellers_report_correct_witness :
    bestsellers_report [orderB1, orderB2] [prodP1, prodP2] 1
      = [⟨"p1", "P1", 100000, 3, 300000⟩] ∧
    ∃ p, alGet (products_dict [prodP1, prodP2])
          (⟨"p1", "P1", 100000, 3, 300000⟩ : BestsellerRec).product_id
        = Option.some p ∧
      p ∈ [prodP1, prodP2] ∧
      p.id = (⟨"p1", "P1", 100000, 3, 300000⟩ : BestsellerRec).product_id ∧
      (⟨"p1", "P1", 100000, 3, 300000⟩ : BestsellerRec).title = p.title ∧
      (⟨"p1", "P1", 100000, 3, 300000⟩ : BestsellerRec).price = p.price ∧
      (⟨"p1", "P1", 100000, 3, 300000⟩ : BestsellerRec).quantity_sold
        = qtyOf [orderB1, orderB2]
            (⟨"p1", "P1", 100000, 3, 300000⟩ : BestsellerRec).product_id ∧
      (⟨"p1", "P1", 100000, 3, 300000⟩ : BestsellerRec).revenue
        = (⟨"p1", "P1", 100000, 3, 300000⟩ : BestsellerRec).quantity_sold
            * p.price := by
  have t := c7_bestsellers_report_correct
  refine ⟨t.1, ?_⟩
  exact (t.2 [orderB1, orderB2] [prodP1, prodP2] 1).1
    ⟨"p1", "P1", 100000, 3, 300000⟩ (by rw [t.1]; exact List.mem_singleton.mpr rfl)
